import Mathlib

/-!
Verification of the Crypto Runner falling-obstacle game.

The game core lives in the canvas component (`CryptoRunnerCanvas`): a per-frame
`update` over mutable refs (player, obstacles, particles, score, spawn timer,
difficulty, fall speed), steering via `handleMove`, and the React shell in
`App.tsx` (`startGame`, `handleGameOver`, high-score persistence).

Embedding choices:
* JavaScript numbers are embedded as exact rationals (`ℚ`); the literals
  `16.66`, `0.02`, `0.00015`, `0.015` are the corresponding exact rationals.
* `Math.random()` draws are oracle inputs: the spawn draws are a triple of
  rationals in `[0, 1)`, and the velocity/size draws of an explosion burst
  (which pass through `cos`/`sin` in the source) are an oracle function
  `burst` giving the 25 `(vx, vy, size)` triples of each collision burst.
* The easing factor `1 - 0.001 ^ (dt / 1000)` is transcendental in `dt`; the
  frame input carries it as a rational oracle field `ease`, and the real-valued
  formula itself is embedded separately (`easeStep`) over `ℝ`.
* Callbacks (`onGameOver`, `onScoreUpdate`) become an emitted event list;
  audio calls and rendering have no game-state effect and are dropped.
-/

namespace CryptoRunner

/-- Colors appearing in game entities (source constants BASE_BLUE, RED_VULN). -/
inductive Color where
  | baseBlue
  | redVuln
deriving DecidableEq

/-- Game phase (types.ts `enum GameState`). -/
inductive GameState where
  | START
  | PLAYING
  | GAMEOVER
deriving DecidableEq

/-- Player entity (types.ts `Player` plus the `targetX` field the canvas
component adds to its player ref). -/
structure Player where
  x : ℚ
  y : ℚ
  width : ℚ
  height : ℚ
  color : Color
  targetX : ℚ
deriving DecidableEq

/-- Obstacle entity (types.ts `Obstacle`). -/
structure Obstacle where
  x : ℚ
  y : ℚ
  width : ℚ
  height : ℚ
  color : Color
  speed : ℚ
deriving DecidableEq

/-- Particle entity (types.ts `Particle`). -/
structure Particle where
  x : ℚ
  y : ℚ
  vx : ℚ
  vy : ℚ
  life : ℚ
  maxLife : ℚ
  color : Color
  size : ℚ
deriving DecidableEq

/-- Outward callbacks the simulator invokes: `onGameOver(Math.floor(score))`
and `onScoreUpdate(Math.floor(score))`. -/
inductive Event where
  | gameOver (finalScore : ℤ)
  | scoreUpdate (score : ℤ)
deriving DecidableEq

/-- Boolean test for a game-over event. -/
def isGameOver : Event → Bool
  | Event.gameOver _ => true
  | Event.scoreUpdate _ => false

/-- Boolean test for a score-update event. -/
def isScoreUpdate : Event → Bool
  | Event.gameOver _ => false
  | Event.scoreUpdate _ => true

/-- The simulator state held across frames in refs by the canvas component:
playerRef, obstaclesRef, particlesRef, scoreRef, spawnTimerRef,
currentDifficultyRef, currentFallSpeedRef. -/
structure GState where
  player : Player
  obstacles : List Obstacle
  particles : List Particle
  score : ℚ
  spawnTimer : ℚ
  difficulty : ℚ
  fallSpeed : ℚ
deriving DecidableEq

/-- Inputs consumed by one `update(dt)` call: the elapsed time, the easing
factor oracle (standing for `1 - 0.001 ^ (dt / 1000)`), the three spawn
draws (width, x, speed jitter), and the burst oracle giving the particle
velocity/size draws of the explosion spawned at obstacle index `i`. -/
structure FrameInput where
  dt : ℚ
  ease : ℚ
  spawnRand : ℚ × ℚ × ℚ
  burst : ℕ → Fin 25 → ℚ × ℚ × ℚ

/-- Source constant INITIAL_FALL_SPEED = 4. -/
def INITIAL_FALL_SPEED : ℚ := 4

/-- Source constant SPEED_INCREMENT = 0.00015. -/
def SPEED_INCREMENT : ℚ := 0.00015

/-- One particle's mutation inside the particle filter of `update`:
`p.x += p.vx * (dt / 16.66); p.y += p.vy * (dt / 16.66);
p.life -= 0.02 * (dt / 16.66)`. -/
def particleStep (dt : ℚ) (p : Particle) : Particle :=
  { p with
    x := p.x + p.vx * (dt / 16.66)
    y := p.y + p.vy * (dt / 16.66)
    life := p.life - 0.02 * (dt / 16.66) }

/-- The particle pass of `update`: filter-in-place that advances every
particle and keeps exactly those with `life > 0` afterwards. -/
def advanceParticles (dt : ℚ) (ps : List Particle) : List Particle :=
  (ps.map (particleStep dt)).filter (fun q => decide (0 < q.life))

/-- `createExplosion`: pushes `count = 25` particles at the given center,
each with life 1.0, maxLife 1.0, the given color, and oracle-supplied
velocity and size draws (in the source `vx = cos(angle) * speed`,
`vy = sin(angle) * speed`, `size = 2 + random * 4`). -/
def createExplosion (x y : ℚ) (c : Color) (vels : Fin 25 → ℚ × ℚ × ℚ) :
    List Particle :=
  (List.finRange 25).map fun i =>
    { x := x, y := y, vx := (vels i).1, vy := (vels i).2.1,
      life := 1, maxLife := 1, color := c, size := (vels i).2.2 }

/-- The per-frame mutation of one obstacle before its collision test:
`obs.y += obs.speed * (dt / 16.66)`. -/
def advObs (dt : ℚ) (o : Obstacle) : Obstacle :=
  { o with y := o.y + o.speed * (dt / 16.66) }

/-- Axis-aligned rectangle overlap test between player and obstacle,
exactly as written in `update`. -/
def collB (p : Player) (o : Obstacle) : Bool :=
  decide (p.x < o.x + o.width) && decide (p.x + p.width > o.x) &&
  decide (p.y < o.y + o.height) && decide (p.y + p.height > o.y)

/-- Test for an obstacle having crossed below the visible height. -/
def botB (H : ℚ) (o : Obstacle) : Bool :=
  decide (o.y > H)

/-- The obstacle filter pass of `update`: advance each obstacle, then
first-match-wins: on collision emit an explosion burst and a game-over
callback with the floored current score and drop the obstacle; otherwise if
it crossed the bottom add 10 to the score, emit a score update, and drop
it; otherwise keep it. Returns (kept obstacles, pushed particles, emitted
events, score after the pass). -/
def runObstacles (H dt : ℚ) (p : Player) (burst : ℕ → Fin 25 → ℚ × ℚ × ℚ) :
    ℕ → ℚ → List Obstacle → List Obstacle × List Particle × List Event × ℚ
  | _idx, score, [] => ([], [], [], score)
  | idx, score, o :: rest =>
    let o1 := advObs dt o
    if collB p o1 then
      let parts := createExplosion (p.x + p.width / 2) (p.y + p.height / 2)
        Color.redVuln (burst idx)
      let r := runObstacles H dt p burst (idx + 1) score rest
      (r.1, parts ++ r.2.1, Event.gameOver ⌊score⌋ :: r.2.2.1, r.2.2.2)
    else if botB H o1 then
      let r := runObstacles H dt p burst (idx + 1) (score + 10) rest
      (r.1, r.2.1, Event.scoreUpdate ⌊score + 10⌋ :: r.2.2.1, r.2.2.2)
    else
      let r := runObstacles H dt p burst (idx + 1) score rest
      (o1 :: r.1, r.2.1, r.2.2.1, r.2.2.2)

/-- The obstacle constructed on a spawn: width `50 + random * 80`, x
`random * (canvas.width - width)`, y `-100`, height `45`, color RED_VULN,
speed `currentFallSpeed + random * 2.5`. -/
def spawnObstacle (W fallSpeed r1 r2 r3 : ℚ) : Obstacle :=
  let width := 50 + r1 * 80
  { x := r2 * (W - width), y := -100, width := width, height := 45,
    color := Color.redVuln, speed := fallSpeed + r3 * 2.5 }

/-- The spawn-timer block of `update`: with `timer0` the already decremented
timer, if it reached zero push a fresh obstacle and reset the timer to
`max(350, 1000 / difficulty)`, else keep the decremented timer. -/
def spawnStep (W fallSpeed difficulty timer0 : ℚ) (r : ℚ × ℚ × ℚ)
    (obs : List Obstacle) : List Obstacle × ℚ :=
  if timer0 ≤ 0 then
    (obs ++ [spawnObstacle W fallSpeed r.1 r.2.1 r.2.2],
     max 350 (1000 / difficulty))
  else
    (obs, timer0)

/-- The player-easing line of `update`:
`p.x += (p.targetX - p.x) * (1 - 0.001 ^ (dt / 1000))`, with the easing
factor supplied by the frame input. -/
def playerAfterEase (inp : FrameInput) (s : GState) : Player :=
  { s.player with x := s.player.x + (s.player.targetX - s.player.x) * inp.ease }

/-- The obstacle list the filter pass of `update` runs over: the previous
obstacles plus the obstacle spawned this frame, if any. -/
def obstaclesProcessed (W : ℚ) (inp : FrameInput) (s : GState) : List Obstacle :=
  (spawnStep W (s.fallSpeed + SPEED_INCREMENT * inp.dt)
    (s.difficulty + SPEED_INCREMENT / 8 * inp.dt)
    (s.spawnTimer - inp.dt) inp.spawnRand s.obstacles).1

/-- The `update(dt)` callback of the canvas component, for a sized canvas of
width `W` and height `H`: advance particles in every phase; if the phase is
PLAYING, ease the player toward targetX, grow fall speed and difficulty,
run the spawn timer, run the obstacle filter, and accrue `0.015 * dt`
background score. Returns the new state and the emitted callbacks. -/
def update (W H : ℚ) (phase : GameState) (inp : FrameInput) (s : GState) :
    GState × List Event :=
  let particles1 := advanceParticles inp.dt s.particles
  if phase = GameState.PLAYING then
    let p1 := playerAfterEase inp s
    let fallSpeed1 := s.fallSpeed + SPEED_INCREMENT * inp.dt
    let difficulty1 := s.difficulty + SPEED_INCREMENT / 8 * inp.dt
    let sp := spawnStep W fallSpeed1 difficulty1 (s.spawnTimer - inp.dt)
      inp.spawnRand s.obstacles
    let r := runObstacles H inp.dt p1 inp.burst 0 s.score sp.1
    ({ player := p1, obstacles := r.1, particles := particles1 ++ r.2.1,
       score := r.2.2.2 + 0.015 * inp.dt, spawnTimer := sp.2,
       difficulty := difficulty1, fallSpeed := fallSpeed1 }, r.2.2.1)
  else
    ({ s with particles := particles1 }, [])

/-- `initGame` for a sized canvas: player of size 48 centered at
`canvas.width / 2 - 24`, `y = canvas.height - 240`, empty obstacle and
particle sets, score 0, spawn timer 0, difficulty 1, initial fall speed. -/
def initGame (W H : ℚ) : GState :=
  { player := { x := W / 2 - 24, y := H - 240, width := 48, height := 48,
                color := Color.baseBlue, targetX := W / 2 - 24 },
    obstacles := [], particles := [], score := 0, spawnTimer := 0,
    difficulty := 1, fallSpeed := INITIAL_FALL_SPEED }

/-- Steering directions accepted by `handleMove`. -/
inductive Dir where
  | left
  | right
deriving DecidableEq

/-- `handleMove`: a no-op unless the phase is PLAYING; otherwise shift
targetX by one lane (a quarter of the canvas width), clamped below at 10
for a left move and above at `canvas.width - p.width - 10` for a right
move. -/
def handleMove (phase : GameState) (W : ℚ) (dir : Dir) (s : GState) : GState :=
  if phase = GameState.PLAYING then
    let lane := W / 4
    let p := s.player
    match dir with
    | Dir.left => { s with player := { p with targetX := max 10 (p.targetX - lane) } }
    | Dir.right => { s with player := { p with targetX := min (W - p.width - 10) (p.targetX + lane) } }
  else s

/-- One interaction with the running game: a steering intent or a frame. -/
inductive Step where
  | move (dir : Dir)
  | frame (inp : FrameInput)

/-- Run a sequence of steering intents and playing-phase frames. -/
def runSteps (W H : ℚ) : List Step → GState → GState
  | [], s => s
  | Step.move d :: rest, s => runSteps W H rest (handleMove GameState.PLAYING W d s)
  | Step.frame f :: rest, s => runSteps W H rest (update W H GameState.PLAYING f s).1

/-- Run a sequence of playing-phase frames, collecting the emitted events. -/
def runFramesPlay (W H : ℚ) : List FrameInput → GState → GState × List Event
  | [], s => (s, [])
  | f :: fs, s =>
    let r := update W H GameState.PLAYING f s
    let rest := runFramesPlay W H fs r.1
    (rest.1, r.2 ++ rest.2)

/-- Total simulated time of a frame sequence. -/
def sumDt : List FrameInput → ℚ
  | [] => 0
  | f :: fs => f.dt + sumDt fs

/-- No spawn fires anywhere along a frame sequence: at each frame the
decremented timer is still positive. -/
def NoSpawn (W H : ℚ) : GState → List FrameInput → Prop
  | _, [] => True
  | s, f :: fs =>
    0 < s.spawnTimer - f.dt ∧ NoSpawn W H (update W H GameState.PLAYING f s).1 fs

/-- Easing-factor bound carried by a step, as a proposition: frames must
carry an easing factor in `[0, 1]` (the value of `1 - 0.001 ^ (dt / 1000)`
for `dt ≥ 0` always lies there, see `easeFactor_bounds`). -/
def stepEase : Step → Prop
  | Step.move _ => True
  | Step.frame f => 0 ≤ f.ease ∧ f.ease ≤ 1

/-- Bounds maintained for the player: fixed width 48 and both the position
and the steering target inside `[10, W - 48 - 10]`. -/
def PlayerInv (W : ℚ) (s : GState) : Prop :=
  s.player.width = 48 ∧ 10 ≤ s.player.x ∧ s.player.x ≤ W - 58 ∧
  10 ≤ s.player.targetX ∧ s.player.targetX ≤ W - 58

/-- The React-level state of `App.tsx` relevant to the claims. The app score
is always an integer: it is set from `Math.floor` values or 0. -/
structure AppState where
  gameState : GameState
  score : ℤ
  highScore : ℤ
deriving DecidableEq

/-- UI side effects of the app handlers. -/
inductive AppAction where
  | openConnect
deriving DecidableEq

/-- `startGame` in App.tsx: if no wallet is connected, open the connect view
and return without touching the game; otherwise zero the score and enter
the PLAYING phase. -/
def startGame (isConnected : Bool) (s : AppState) : AppState × List AppAction :=
  if !isConnected then
    (s, [AppAction.openConnect])
  else
    ({ s with score := 0, gameState := GameState.PLAYING }, [])

/-- `handleGameOver` in App.tsx: record the final score, persist it as the
new high score exactly when it strictly exceeds the current one, and enter
the GAMEOVER phase. The second component is the value written to storage,
if any. -/
def handleGameOver (finalScore : ℤ) (s : AppState) : AppState × Option ℤ :=
  if finalScore > s.highScore then
    ({ gameState := GameState.GAMEOVER, score := finalScore,
       highScore := finalScore }, some finalScore)
  else
    ({ gameState := GameState.GAMEOVER, score := finalScore,
       highScore := s.highScore }, none)

/-- The startup high-score load in App.tsx: the stored value if present,
else the initial 0. -/
def loadHighScore : Option ℤ → ℤ
  | none => 0
  | some n => n

/-- The exact real-valued easing update of the source, over `ℝ`:
`x + (targetX - x) * (1 - 0.001 ^ (dt / 1000))`. -/
noncomputable def easeStep (target dt x : ℝ) : ℝ :=
  x + (target - x) * (1 - (0.001 : ℝ) ^ (dt / 1000))

/-- The real-valued easing factor `1 - 0.001 ^ (dt / 1000)`. -/
noncomputable def easeFactor (dt : ℝ) : ℝ :=
  1 - (0.001 : ℝ) ^ (dt / 1000)

/-- A constant burst oracle for concrete scenarios. -/
def sampleBurst : ℕ → Fin 25 → ℚ × ℚ × ℚ := fun _ _ => (0, 0, 0)

/-- A concrete frame input with a given elapsed time, easing factor 0 and
zero random draws. -/
def sampleInput (dt : ℚ) : FrameInput :=
  { dt := dt, ease := 0, spawnRand := (0, 0, 0), burst := sampleBurst }

/-- A concrete player used in collision scenarios (position of the player
right after `initGame` on an 800 by 600 canvas). -/
def cePlayer : Player :=
  { x := 376, y := 360, width := 48, height := 48,
    color := Color.baseBlue, targetX := 376 }

/-- A concrete stationary obstacle overlapping `cePlayer`. -/
def ceObstacle : Obstacle :=
  { x := 370, y := 330, width := 60, height := 45,
    color := Color.redVuln, speed := 0 }

/-- A playing state in which the player overlaps two obstacles at once. -/
def ceState : GState :=
  { player := cePlayer, obstacles := [ceObstacle, ceObstacle],
    particles := [], score := 0, spawnTimer := 1000,
    difficulty := 1, fallSpeed := 4 }

/-- A playing state in which the player overlaps exactly one obstacle. -/
def cwState : GState :=
  { player := cePlayer, obstacles := [ceObstacle],
    particles := [], score := 0, spawnTimer := 1000,
    difficulty := 1, fallSpeed := 4 }

/-- A live particle used in the particle-advance scenarios. -/
def ceParticle : Particle :=
  { x := 0, y := 0, vx := 0, vy := 0, life := 1/2, maxLife := 1,
    color := Color.redVuln, size := 1 }

lemma createExplosion_length (x y : ℚ) (c : Color) (v : Fin 25 → ℚ × ℚ × ℚ) :
    (createExplosion x y c v).length = 25 := by
  simp [createExplosion]

lemma createExplosion_life (x y : ℚ) (c : Color) (v : Fin 25 → ℚ × ℚ × ℚ) :
    ∀ q ∈ createExplosion x y c v, q.life = 1 := by
  intro q hq
  simp only [createExplosion, List.mem_map] at hq
  obtain ⟨i, -, rfl⟩ := hq
  rfl

/-- Composed collision predicate: the obstacle collides with the player
after this frame's advance. -/
def collAfter (dt : ℚ) (p : Player) (o : Obstacle) : Bool :=
  collB p (advObs dt o)

/-- Composed dodge predicate: the obstacle does not collide but has crossed
below the visible height after this frame's advance. -/
def dodgeAfter (H dt : ℚ) (p : Player) (o : Obstacle) : Bool :=
  !collB p (advObs dt o) && botB H (advObs dt o)

lemma runObstacles_spec (H dt : ℚ) (p : Player) (burst : ℕ → Fin 25 → ℚ × ℚ × ℚ) :
    ∀ (l : List Obstacle) (idx : ℕ) (score : ℚ),
      (runObstacles H dt p burst idx score l).1
          = (l.map (advObs dt)).filter (fun o => !collB p o && !botB H o)
      ∧ (runObstacles H dt p burst idx score l).2.1.length
          = 25 * l.countP (collAfter dt p)
      ∧ (runObstacles H dt p burst idx score l).2.2.2
          = score + 10 * (l.countP (dodgeAfter H dt p) : ℚ)
      ∧ (runObstacles H dt p burst idx score l).2.2.1.countP isScoreUpdate
          = l.countP (dodgeAfter H dt p)
      ∧ (runObstacles H dt p burst idx score l).2.2.1.countP isGameOver
          = l.countP (collAfter dt p)
      ∧ (∀ q ∈ (runObstacles H dt p burst idx score l).2.1, q.life = 1) := by
  intro l
  induction l with
  | nil =>
    intro idx score
    simp [runObstacles]
  | cons o rest ih =>
    intro idx score
    by_cases hc : collB p (advObs dt o) = true
    · obtain ⟨ih1, ih2, ih3, ih4, ih5, ih6⟩ := ih (idx + 1) score
      refine ⟨?_, ?_, ?_, ?_, ?_, ?_⟩
      · simp [runObstacles, hc, ih1, List.filter_cons]
      · simp [runObstacles, hc, ih2, createExplosion_length,
          List.countP_cons, collAfter]
        omega
      · simp [runObstacles, hc, ih3, List.countP_cons, collAfter, dodgeAfter]
      · simp [runObstacles, hc, ih4, List.countP_cons, collAfter, dodgeAfter,
          isScoreUpdate]
      · simp [runObstacles, hc, ih5, List.countP_cons, collAfter, isGameOver]
      · intro q hq
        simp only [runObstacles, hc, if_true, List.mem_append] at hq
        rcases hq with hq | hq
        · exact createExplosion_life _ _ _ _ q hq
        · exact ih6 q hq
    · by_cases hb : botB H (advObs dt o) = true
      · obtain ⟨ih1, ih2, ih3, ih4, ih5, ih6⟩ := ih (idx + 1) (score + 10)
        refine ⟨?_, ?_, ?_, ?_, ?_, ?_⟩
        · simp [runObstacles, hc, hb, ih1, List.filter_cons]
        · simp [runObstacles, hc, hb, ih2, List.countP_cons, collAfter]
        · simp [runObstacles, hc, hb, ih3, List.countP_cons, collAfter,
            dodgeAfter]
          ring
        · simp [runObstacles, hc, hb, ih4, List.countP_cons, collAfter,
            dodgeAfter, isScoreUpdate]
        · simp [runObstacles, hc, hb, ih5, List.countP_cons, collAfter,
            isGameOver]
        · intro q hq
          simp only [runObstacles, hc, hb, Bool.false_eq_true, if_false,
            if_true] at hq
          exact ih6 q hq
      · obtain ⟨ih1, ih2, ih3, ih4, ih5, ih6⟩ := ih (idx + 1) score
        refine ⟨?_, ?_, ?_, ?_, ?_, ?_⟩
        · simp [runObstacles, hc, hb, ih1, List.filter_cons]
        · simp [runObstacles, hc, hb, ih2, List.countP_cons, collAfter]
        · simp [runObstacles, hc, hb, ih3, List.countP_cons, collAfter,
            dodgeAfter]
        · simp [runObstacles, hc, hb, ih4, List.countP_cons, collAfter,
            dodgeAfter, isScoreUpdate]
        · simp [runObstacles, hc, hb, ih5, List.countP_cons, collAfter,
            isGameOver]
        · intro q hq
          simp only [runObstacles, hc, hb, Bool.false_eq_true, if_false,
            List.mem_cons] at hq
          exact ih6 q hq

lemma runObstacles_events_silent (H dt : ℚ) (p : Player)
    (burst : ℕ → Fin 25 → ℚ × ℚ × ℚ) :
    ∀ (l : List Obstacle) (idx : ℕ) (score : ℚ),
      (∀ o ∈ l, collB p (advObs dt o) = false ∧ botB H (advObs dt o) = false) →
      (runObstacles H dt p burst idx score l).2.2.1 = [] := by
  intro l
  induction l with
  | nil =>
    intro idx score _
    simp [runObstacles]
  | cons o rest ih =>
    intro idx score h
    obtain ⟨hc, hb⟩ := h o (List.mem_cons_self o rest)
    have hrest : ∀ o' ∈ rest, collB p (advObs dt o') = false ∧ botB H (advObs dt o') = false :=
      fun o' ho' => h o' (List.mem_cons_of_mem o ho')
    simp [runObstacles, hc, hb, ih (idx + 1) score hrest]

lemma runObstacles_events_one (H dt : ℚ) (p : Player)
    (burst : ℕ → Fin 25 → ℚ × ℚ × ℚ) :
    ∀ (l : List Obstacle) (idx : ℕ) (score : ℚ),
      l.countP (collAfter dt p) = 1 →
      l.countP (dodgeAfter H dt p) = 0 →
      (runObstacles H dt p burst idx score l).2.2.1 = [Event.gameOver ⌊score⌋] := by
  intro l
  induction l with
  | nil =>
    intro idx score hc _
    simp at hc
  | cons o rest ih =>
    intro idx score hc hd
    rw [List.countP_cons] at hc hd
    have hdo : dodgeAfter H dt p o = false := by
      rcases Bool.eq_false_or_eq_true (dodgeAfter H dt p o) with h | h
      · rw [h] at hd
        simp at hd
      · exact h
    have hrd : rest.countP (dodgeAfter H dt p) = 0 := by
      rw [hdo] at hd
      simpa using hd
    by_cases h1 : collB p (advObs dt o) = true
    · have hite : (if collAfter dt p o = true then 1 else 0) = 1 := by
        simp [collAfter, h1]
      have hrc0 : rest.countP (collAfter dt p) = 0 := by omega
      have hall_c : ∀ o' ∈ rest, collB p (advObs dt o') = false := by
        intro o' ho'
        have h' := List.countP_eq_zero.mp hrc0 _ ho'
        simpa [collAfter] using h'
      have hall_b : ∀ o' ∈ rest, botB H (advObs dt o') = false := by
        intro o' ho'
        have h' := List.countP_eq_zero.mp hrd _ ho'
        simpa [dodgeAfter, hall_c o' ho'] using h'
      have hsilent : (runObstacles H dt p burst (idx + 1) score rest).2.2.1 = [] :=
        runObstacles_events_silent H dt p burst rest (idx + 1) score
          (fun o' ho' => ⟨hall_c o' ho', hall_b o' ho'⟩)
      simp [runObstacles, h1, hsilent]
    · have h1f : collB p (advObs dt o) = false := by
        simpa using h1
      have h2 : botB H (advObs dt o) = false := by
        rcases Bool.eq_false_or_eq_true (botB H (advObs dt o)) with h | h
        · rw [dodgeAfter, h1f, h] at hdo
          simp at hdo
        · exact h
      have hite : (if collAfter dt p o = true then 1 else 0) = 0 := by
        simp [collAfter, h1]
      have hrc : rest.countP (collAfter dt p) = 1 := by omega
      simp [runObstacles, h1, h2, ih (idx + 1) score hrc hrd]

lemma update_playing (W H : ℚ) (inp : FrameInput) (s : GState) :
    update W H GameState.PLAYING inp s =
      ({ player := playerAfterEase inp s,
         obstacles := (runObstacles H inp.dt (playerAfterEase inp s) inp.burst 0
           s.score (obstaclesProcessed W inp s)).1,
         particles := advanceParticles inp.dt s.particles ++
           (runObstacles H inp.dt (playerAfterEase inp s) inp.burst 0
             s.score (obstaclesProcessed W inp s)).2.1,
         score := (runObstacles H inp.dt (playerAfterEase inp s) inp.burst 0
           s.score (obstaclesProcessed W inp s)).2.2.2 + 0.015 * inp.dt,
         spawnTimer := (spawnStep W (s.fallSpeed + SPEED_INCREMENT * inp.dt)
           (s.difficulty + SPEED_INCREMENT / 8 * inp.dt)
           (s.spawnTimer - inp.dt) inp.spawnRand s.obstacles).2,
         difficulty := s.difficulty + SPEED_INCREMENT / 8 * inp.dt,
         fallSpeed := s.fallSpeed + SPEED_INCREMENT * inp.dt },
       (runObstacles H inp.dt (playerAfterEase inp s) inp.burst 0
         s.score (obstaclesProcessed W inp s)).2.2.1) :=
  rfl

lemma update_not_playing (W H : ℚ) (phase : GameState) (inp : FrameInput)
    (s : GState) (h : phase ≠ GameState.PLAYING) :
    update W H phase inp s = ({ s with particles := advanceParticles inp.dt s.particles }, []) := by
  simp [update, h]

lemma update_score_eq (W H : ℚ) (inp : FrameInput) (s : GState) :
    (update W H GameState.PLAYING inp s).1.score
      = s.score
        + 10 * (((update W H GameState.PLAYING inp s).2.countP isScoreUpdate : ℕ) : ℚ)
        + 0.015 * inp.dt := by
  have h := runObstacles_spec H inp.dt (playerAfterEase inp s) inp.burst
    (obstaclesProcessed W inp s) 0 s.score
  rw [update_playing]
  simp only
  rw [h.2.2.1, h.2.2.2.1]

lemma runFramesPlay_score (W H : ℚ) :
    ∀ (frames : List FrameInput) (s : GState),
      (runFramesPlay W H frames s).1.score
        = s.score
          + 10 * (((runFramesPlay W H frames s).2.countP isScoreUpdate : ℕ) : ℚ)
          + 0.015 * sumDt frames := by
  intro frames
  induction frames with
  | nil =>
    intro s
    simp [runFramesPlay, sumDt]
  | cons f fs ih =>
    intro s
    simp only [runFramesPlay, sumDt, List.countP_append]
    rw [ih, update_score_eq]
    push_cast
    ring

lemma update_spawnTimer_noSpawn (W H : ℚ) (inp : FrameInput) (s : GState)
    (h : 0 < s.spawnTimer - inp.dt) :
    (update W H GameState.PLAYING inp s).1.spawnTimer = s.spawnTimer - inp.dt := by
  rw [update_playing]
  simp [spawnStep, not_le.mpr h]

lemma NoSpawn_timer (W H : ℚ) :
    ∀ (frames : List FrameInput) (s : GState), NoSpawn W H s frames →
      (runFramesPlay W H frames s).1.spawnTimer = s.spawnTimer - sumDt frames := by
  intro frames
  induction frames with
  | nil =>
    intro s _
    simp [runFramesPlay, sumDt]
  | cons f fs ih =>
    intro s h
    obtain ⟨h1, h2⟩ := h
    simp only [runFramesPlay]
    rw [ih _ h2, update_spawnTimer_noSpawn W H f s h1, sumDt]
    ring

lemma easeFactor_bounds (dt : ℝ) (h : 0 ≤ dt) :
    0 ≤ easeFactor dt ∧ easeFactor dt < 1 := by
  constructor
  · have h1 : (0.001 : ℝ) ^ (dt / 1000) ≤ 1 :=
      Real.rpow_le_one (by norm_num) (by norm_num) (by positivity)
    simp only [easeFactor]
    linarith
  · have h2 : 0 < (0.001 : ℝ) ^ (dt / 1000) :=
      Real.rpow_pos_of_pos (by norm_num) _
    simp only [easeFactor]
    linarith

lemma playerInv_init (W H : ℚ) (hW : 68 ≤ W) : PlayerInv W (initGame W H) := by
  refine ⟨rfl, ?_, ?_, ?_, ?_⟩ <;> simp [initGame] <;> linarith

lemma playerInv_move (W : ℚ) (hW : 68 ≤ W) (d : Dir) (s : GState)
    (h : PlayerInv W s) : PlayerInv W (handleMove GameState.PLAYING W d s) := by
  obtain ⟨hw, hx1, hx2, ht1, ht2⟩ := h
  cases d with
  | left =>
    refine ⟨hw, hx1, hx2, ?_, ?_⟩
    · show 10 ≤ max 10 (s.player.targetX - W / 4)
      exact le_max_left _ _
    · show max 10 (s.player.targetX - W / 4) ≤ W - 58
      exact max_le (by linarith) (by linarith)
  | right =>
    have h58 : W - s.player.width - 10 = W - 58 := by
      rw [hw]
      ring
    refine ⟨hw, hx1, hx2, ?_, ?_⟩
    · show 10 ≤ min (W - s.player.width - 10) (s.player.targetX + W / 4)
      rw [h58]
      exact le_min (by linarith) (by linarith)
    · show min (W - s.player.width - 10) (s.player.targetX + W / 4) ≤ W - 58
      rw [h58]
      exact min_le_left _ _

lemma playerInv_update (W H : ℚ) (inp : FrameInput) (s : GState)
    (he1 : 0 ≤ inp.ease) (he2 : inp.ease ≤ 1) (h : PlayerInv W s) :
    PlayerInv W (update W H GameState.PLAYING inp s).1 := by
  obtain ⟨hw, hx1, hx2, ht1, ht2⟩ := h
  rw [update_playing]
  refine ⟨hw, ?_, ?_, ht1, ht2⟩
  · show 10 ≤ s.player.x + (s.player.targetX - s.player.x) * inp.ease
    nlinarith [mul_nonneg (by linarith : (0:ℚ) ≤ s.player.x - 10)
        (by linarith : (0:ℚ) ≤ 1 - inp.ease),
      mul_nonneg (by linarith : (0:ℚ) ≤ s.player.targetX - 10) he1]
  · show s.player.x + (s.player.targetX - s.player.x) * inp.ease ≤ W - 58
    nlinarith [mul_nonneg (by linarith : (0:ℚ) ≤ W - 58 - s.player.x)
        (by linarith : (0:ℚ) ≤ 1 - inp.ease),
      mul_nonneg (by linarith : (0:ℚ) ≤ W - 58 - s.player.targetX) he1]

lemma playerInv_steps (W H : ℚ) (hW : 68 ≤ W) :
    ∀ (steps : List Step) (s : GState), PlayerInv W s →
      (∀ st ∈ steps, stepEase st) → PlayerInv W (runSteps W H steps s) := by
  intro steps
  induction steps with
  | nil =>
    intro s h _
    simpa [runSteps] using h
  | cons st rest ih =>
    intro s h hse
    cases st with
    | move d =>
      simp only [runSteps]
      exact ih _ (playerInv_move W hW d s h)
        (fun st' h' => hse st' (List.mem_cons_of_mem _ h'))
    | frame f =>
      have hf := hse (Step.frame f) (List.mem_cons_self _ _)
      simp only [stepEase] at hf
      simp only [runSteps]
      exact ih _ (playerInv_update W H f s hf.1 hf.2 h)
        (fun st' h' => hse st' (List.mem_cons_of_mem _ h'))

lemma advanceParticles_pos (dt : ℚ) (ps : List Particle) :
    ∀ q ∈ advanceParticles dt ps, 0 < q.life := by
  intro q hq
  have h := (List.mem_filter.mp hq).2
  simpa using h

/-- C1, as stated, is false: the obstacle filter handles every obstacle the
player overlaps, so a frame in which the player overlaps two obstacles (a
frame overlapping at least one obstacle) emits two game-over callbacks and
50 particles, not exactly one and 25. Both obstacles of `ceState` overlap
the player after the frame's advance. -/
theorem claim_C1_counterexample :
    collB (playerAfterEase (sampleInput 1) ceState) (advObs 1 ceObstacle) = true
    ∧ (update 800 600 GameState.PLAYING (sampleInput 1) ceState).2
        = [Event.gameOver 0, Event.gameOver 0]
    ∧ (update 800 600 GameState.PLAYING (sampleInput 1) ceState).1.particles.length
        = 50 := by
  refine ⟨?_, ?_, ?_⟩ <;>
    norm_num [update, playerAfterEase, spawnStep, sampleInput, sampleBurst,
      ceState, cePlayer, ceObstacle, runObstacles, advObs, collB, botB,
      SPEED_INCREMENT, advanceParticles, createExplosion]

/-- C1 (amended): in a playing-phase frame in which the player's rectangle
overlaps exactly one processed obstacle after this frame's movement and no
other obstacle leaves the bottom, the simulator emits exactly one game-over
callback carrying the floor of the pre-collision score, appends exactly 25
burst particles, and removes exactly the colliding obstacle (a frame with k
overlapping obstacles emits k game-over calls and 25k particles). -/
theorem claim_C1 (W H : ℚ) (inp : FrameInput) (s : GState)
    (hc : (obstaclesProcessed W inp s).countP
        (collAfter inp.dt (playerAfterEase inp s)) = 1)
    (hd : (obstaclesProcessed W inp s).countP
        (dodgeAfter H inp.dt (playerAfterEase inp s)) = 0) :
    (update W H GameState.PLAYING inp s).2 = [Event.gameOver ⌊s.score⌋]
    ∧ (update W H GameState.PLAYING inp s).1.particles.length
        = (advanceParticles inp.dt s.particles).length + 25
    ∧ (update W H GameState.PLAYING inp s).1.obstacles
        = ((obstaclesProcessed W inp s).map (advObs inp.dt)).filter
            (fun o => !collB (playerAfterEase inp s) o) := by
  have hs := runObstacles_spec H inp.dt (playerAfterEase inp s) inp.burst
    (obstaclesProcessed W inp s) 0 s.score
  refine ⟨?_, ?_, ?_⟩
  · rw [update_playing]
    exact runObstacles_events_one H inp.dt _ inp.burst _ 0 s.score hc hd
  · rw [update_playing]
    simp only [List.length_append]
    rw [hs.2.1, hc]
  · rw [update_playing]
    simp only
    rw [hs.1]
    refine List.filter_congr ?_
    intro o ho
    obtain ⟨o0, ho0, rfl⟩ := List.mem_map.mp ho
    have hdo : dodgeAfter H inp.dt (playerAfterEase inp s) o0 = false := by
      have h' := List.countP_eq_zero.mp hd _ ho0
      simpa using h'
    rcases Bool.eq_false_or_eq_true
        (collB (playerAfterEase inp s) (advObs inp.dt o0)) with h | h
    · simp [h]
    · have hb : botB H (advObs inp.dt o0) = false := by
        rw [dodgeAfter, h] at hdo
        simpa using hdo
      simp [h, hb]

/-- C1 witness: the amended theorem at a concrete one-collision frame. -/
theorem claim_C1_witness :
    (obstaclesProcessed 800 (sampleInput 1) cwState).countP
        (collAfter (sampleInput 1).dt (playerAfterEase (sampleInput 1) cwState)) = 1
    ∧ (update 800 600 GameState.PLAYING (sampleInput 1) cwState).2
        = [Event.gameOver ⌊cwState.score⌋] :=
  ⟨by norm_num [obstaclesProcessed, spawnStep, sampleInput, cwState, cePlayer,
      ceObstacle, collAfter, collB, advObs, playerAfterEase, SPEED_INCREMENT,
      List.countP_cons],
   (claim_C1 800 600 (sampleInput 1) cwState
      (by norm_num [obstaclesProcessed, spawnStep, sampleInput, cwState, cePlayer,
        ceObstacle, collAfter, collB, advObs, playerAfterEase, SPEED_INCREMENT,
        List.countP_cons])
      (by norm_num [obstaclesProcessed, spawnStep, sampleInput, cwState, cePlayer,
        ceObstacle, dodgeAfter, collB, botB, advObs, playerAfterEase,
        SPEED_INCREMENT, List.countP_cons])).1⟩

/-- C2, as stated, is false: `startGame` is gated on a connected wallet.
With no wallet connected it opens the connect dialog and leaves the phase
and score unchanged, so it does not start a run in every connection state. -/
theorem claim_C2_counterexample :
    (startGame false { gameState := GameState.START, score := 7, highScore := 3 }).1.gameState
      ≠ GameState.PLAYING
    ∧ (startGame false { gameState := GameState.START, score := 7, highScore := 3 }).1.score
      = 7 := by
  refine ⟨?_, rfl⟩
  intro h
  exact absurd (congrArg id h) (by simp [startGame])

/-- C2 (amended): wallet data is used for display, but starting a run is
gated on connection: with a wallet connected, `startGame` sets the score to
0 and the phase to playing from any screen; with no wallet connected it
opens the connect dialog and leaves the app state unchanged. -/
theorem claim_C2 (s : AppState) :
    startGame true s = ({ s with score := 0, gameState := GameState.PLAYING }, [])
    ∧ startGame false s = (s, [AppAction.openConnect]) :=
  ⟨rfl, rfl⟩

/-- C3 (confirmed): on a canvas wide enough to hold the player with its
margins, after any sequence of steering intents and playing frames from a
reset, the player's x stays within `[10, W - playerWidth - 10]`: steering
clamps the target into this range and each frame moves x convexly toward
the target (easing factor in `[0, 1]`, which `1 - 0.001 ^ (dt / 1000)`
satisfies for `dt ≥ 0` by `easeFactor_bounds`). -/
theorem claim_C3 (W H : ℚ) (steps : List Step) (hW : 68 ≤ W)
    (he : ∀ st ∈ steps, stepEase st) :
    10 ≤ (runSteps W H steps (initGame W H)).player.x
    ∧ (runSteps W H steps (initGame W H)).player.x
        ≤ W - (runSteps W H steps (initGame W H)).player.width - 10 := by
  obtain ⟨hw, hx1, hx2, -, -⟩ :=
    playerInv_steps W H hW steps (initGame W H) (playerInv_init W H hW) he
  refine ⟨hx1, ?_⟩
  rw [hw]
  linarith

/-- C3 witness: a concrete left steer followed by a frame on an 800-wide
canvas keeps x within bounds. -/
theorem claim_C3_witness :
    (68 : ℚ) ≤ 800
    ∧ 10 ≤ (runSteps 800 600 [Step.move Dir.left, Step.frame (sampleInput 16)]
        (initGame 800 600)).player.x :=
  ⟨by norm_num,
   (claim_C3 800 600 [Step.move Dir.left, Step.frame (sampleInput 16)]
      (by norm_num)
      (by
        intro st hst
        simp only [List.mem_cons, List.not_mem_nil, or_false] at hst
        rcases hst with rfl | rfl
        · trivial
        · exact ⟨by norm_num [sampleInput], by norm_num [sampleInput]⟩)).1⟩

/-- C4 (confirmed): starting from a reset, over any run of playing frames
with no collision, the final score is at least `10 N + 0.015 T`, where N is
the number of dodged obstacles (score-update callbacks) and T the total
simulated time; in fact equality holds, since each dodge adds exactly 10
and each frame adds exactly `0.015 dt`. -/
theorem claim_C4 (W H : ℚ) (frames : List FrameInput)
    (h : (runFramesPlay W H frames (initGame W H)).2.countP isGameOver = 0) :
    10 * (((runFramesPlay W H frames (initGame W H)).2.countP isScoreUpdate : ℕ) : ℚ)
      + 0.015 * sumDt frames
      ≤ (runFramesPlay W H frames (initGame W H)).1.score := by
  rw [runFramesPlay_score]
  simp [initGame]

/-- C4 witness: the theorem at the empty run. -/
theorem claim_C4_witness :
    (runFramesPlay 800 600 [] (initGame 800 600)).2.countP isGameOver = 0
    ∧ 10 * (((runFramesPlay 800 600 [] (initGame 800 600)).2.countP isScoreUpdate : ℕ) : ℚ)
        + 0.015 * sumDt []
        ≤ (runFramesPlay 800 600 [] (initGame 800 600)).1.score :=
  ⟨by simp [runFramesPlay], claim_C4 800 600 [] (by simp [runFramesPlay])⟩

/-- C5, as stated, is false: the frame driver computes `dt` as a timestamp
difference and its very first frame has `dt = 0` (the last-time ref starts
falsy), and an advance with `dt = 0` leaves every particle's life
unchanged, not strictly smaller. -/
theorem claim_C5_counterexample :
    (particleStep 0 ceParticle).life = ceParticle.life
    ∧ ¬ (particleStep 0 ceParticle).life < ceParticle.life := by
  constructor <;> norm_num [particleStep, ceParticle]

/-- C5 (amended): on every advance with positive elapsed time, each
particle's life strictly decreases, a stepped particle is kept exactly when
its life is still positive, no particle with non-positive life survives an
update in any phase, and in non-playing phases the particle set is exactly
the advanced one (particles advance in every phase). -/
theorem claim_C5 (dt : ℚ) (hdt : 0 < dt) (ps : List Particle) :
    (∀ p ∈ ps, (particleStep dt p).life < p.life)
    ∧ (∀ p ∈ ps, 0 < (particleStep dt p).life →
        particleStep dt p ∈ advanceParticles dt ps)
    ∧ (∀ q ∈ advanceParticles dt ps, 0 < q.life)
    ∧ (∀ (W H : ℚ) (phase : GameState) (inp : FrameInput) (s : GState),
        inp.dt = dt → s.particles = ps →
        (∀ q ∈ (update W H phase inp s).1.particles, 0 < q.life)
        ∧ (phase ≠ GameState.PLAYING →
            (update W H phase inp s).1.particles = advanceParticles dt ps)) := by
  refine ⟨?_, ?_, advanceParticles_pos dt ps, ?_⟩
  · intro p _
    have hpos : 0 < 0.02 * (dt / 16.66) := by positivity
    simp only [particleStep]
    linarith
  · intro p hp h
    exact List.mem_filter.mpr ⟨List.mem_map_of_mem _ hp, by simpa using h⟩
  · intro W H phase inp s hdt1 hps
    by_cases hp : phase = GameState.PLAYING
    · subst hp
      constructor
      · intro q hq
        rw [update_playing] at hq
        simp only [List.mem_append] at hq
        rcases hq with hq | hq
        · rw [hdt1, hps] at hq
          exact advanceParticles_pos dt ps q hq
        · have hlife := (runObstacles_spec H inp.dt (playerAfterEase inp s)
            inp.burst (obstaclesProcessed W inp s) 0 s.score).2.2.2.2.2 q hq
          rw [hlife]
          norm_num
      · intro hcon
        exact absurd rfl hcon
    · have h1 : (update W H phase inp s).1.particles
          = advanceParticles inp.dt s.particles := by
        rw [update_not_playing W H phase inp s hp]
      rw [hdt1, hps] at h1
      constructor
      · intro q hq
        rw [h1] at hq
        exact advanceParticles_pos dt ps q hq
      · intro _
        exact h1

/-- C5 witness: the amended theorem at a concrete positive dt. -/
theorem claim_C5_witness :
    (0 : ℚ) < 1 ∧ ∀ p ∈ [ceParticle], (particleStep 1 p).life < p.life :=
  ⟨by norm_num, (claim_C5 1 (by norm_num) [ceParticle]).1⟩

/-- C6 (confirmed): the easing `x += (targetX - x) * (1 - 0.001 ^ (dt / 1000))`
composes: advancing by dt1 and then dt2 equals a single advance by
dt1 + dt2, so the smoothing is frame-rate independent. -/
theorem claim_C6 (target x dt1 dt2 : ℝ) :
    easeStep target dt2 (easeStep target dt1 x) = easeStep target (dt1 + dt2) x := by
  unfold easeStep
  have h : (0.001 : ℝ) ^ ((dt1 + dt2) / 1000)
      = (0.001 : ℝ) ^ (dt1 / 1000) * (0.001 : ℝ) ^ (dt2 / 1000) := by
    rw [add_div, Real.rpow_add (by norm_num)]
  rw [h]
  ring

/-- C7 (confirmed): a spawn resets the timer to `max(350, 1000 / difficulty)`,
which is at least 350; and from any state whose timer is at least 350 (as
after any spawn), along playing frames with no spawn until the next frame
fires one, the total simulated time elapsed is at least 350 ms. -/
theorem claim_C7 :
    (∀ (W fallSpeed difficulty timer0 : ℚ) (r : ℚ × ℚ × ℚ) (obs : List Obstacle),
        timer0 ≤ 0 →
        (spawnStep W fallSpeed difficulty timer0 r obs).2 = max 350 (1000 / difficulty)
        ∧ 350 ≤ (spawnStep W fallSpeed difficulty timer0 r obs).2)
    ∧ (∀ (W H : ℚ) (s : GState) (frames : List FrameInput) (fNext : FrameInput),
        350 ≤ s.spawnTimer → NoSpawn W H s frames →
        (runFramesPlay W H frames s).1.spawnTimer - fNext.dt ≤ 0 →
        350 ≤ sumDt frames + fNext.dt) := by
  constructor
  · intro W fs d t0 r obs h
    refine ⟨by simp [spawnStep, h], ?_⟩
    simp only [spawnStep, h, if_pos]
    exact le_max_left _ _
  · intro W H s frames fNext h350 hns hfire
    rw [NoSpawn_timer W H frames s hns] at hfire
    linarith

/-- C7 witness: a fired timer resets to at least 350. -/
theorem claim_C7_witness :
    (-5 : ℚ) ≤ 0 ∧ 350 ≤ (spawnStep 800 4 1 (-5) (0, 0, 0) []).2 :=
  ⟨by norm_num, (claim_C7.1 800 4 1 (-5) (0, 0, 0) [] (by norm_num)).2⟩

/-- C8 (confirmed): a spawned obstacle's fall speed is the current base fall
speed plus a jitter in `[0, 2.5)`, hence at least the base speed, and its
width lies in `[50, 130)`, given draws in `[0, 1)`. -/
theorem claim_C8 (W fallSpeed r1 r2 r3 : ℚ)
    (h1 : 0 ≤ r1) (h2 : r1 < 1) (h3 : 0 ≤ r3) (h4 : r3 < 1) :
    fallSpeed ≤ (spawnObstacle W fallSpeed r1 r2 r3).speed
    ∧ (spawnObstacle W fallSpeed r1 r2 r3).speed < fallSpeed + 2.5
    ∧ 50 ≤ (spawnObstacle W fallSpeed r1 r2 r3).width
    ∧ (spawnObstacle W fallSpeed r1 r2 r3).width < 130 := by
  refine ⟨?_, ?_, ?_, ?_⟩ <;> simp only [spawnObstacle] <;> nlinarith

/-- C8 witness: the theorem at concrete mid-range draws. -/
theorem claim_C8_witness :
    (0 : ℚ) ≤ 1 / 2 ∧ (4 : ℚ) ≤ (spawnObstacle 800 4 (1/2) (1/2) (1/2)).speed :=
  ⟨by norm_num,
   (claim_C8 800 4 (1/2) (1/2) (1/2) (by norm_num) (by norm_num) (by norm_num)
      (by norm_num)).1⟩

/-- C9 (confirmed): the stored high score is overwritten with the final
score exactly when it strictly exceeds the current high score and is left
unchanged otherwise; the handler records the score and enters the game-over
phase; and the single startup load returns the stored value, or 0 when
nothing is stored. -/
theorem claim_C9 (s : AppState) (S : ℤ) :
    (handleGameOver S s).2 = (if s.highScore < S then some S else none)
    ∧ (handleGameOver S s).1.highScore = max s.highScore S
    ∧ (handleGameOver S s).1.score = S
    ∧ (handleGameOver S s).1.gameState = GameState.GAMEOVER
    ∧ loadHighScore none = 0
    ∧ (∀ n : ℤ, loadHighScore (some n) = n) := by
  by_cases h : s.highScore < S
  · simp [handleGameOver, h, loadHighScore, max_eq_right (le_of_lt h)]
  · simp [handleGameOver, h, loadHighScore, max_eq_left (not_lt.mp h)]

/-- C10, as stated, is false: on a canvas narrower than the drawn width the
spawn position `random * (canvasWidth - width)` is negative, so the
obstacle is not inside the canvas; for canvas width 100 and draws
width-draw 9/10 (width 122) and x-draw 1/2, the spawned x is -11. -/
theorem claim_C10_counterexample :
    ¬ (0 ≤ (spawnObstacle 100 4 (9/10) (1/2) (1/2)).x) := by
  norm_num [spawnObstacle]

/-- C10 (amended): whenever the canvas is at least 130 wide (so at least as
wide as any spawned obstacle), a spawned obstacle lies entirely inside the
canvas horizontally: `0 ≤ x` and `x + width ≤ canvasWidth`; and it always
spawns at y = -100 with height 45. -/
theorem claim_C10 (W fallSpeed r1 r2 r3 : ℚ) (hW : 130 ≤ W)
    (h1 : 0 ≤ r1) (h2 : r1 < 1) (h3 : 0 ≤ r2) (h4 : r2 < 1) :
    0 ≤ (spawnObstacle W fallSpeed r1 r2 r3).x
    ∧ (spawnObstacle W fallSpeed r1 r2 r3).x
        + (spawnObstacle W fallSpeed r1 r2 r3).width ≤ W
    ∧ (spawnObstacle W fallSpeed r1 r2 r3).y = -100
    ∧ (spawnObstacle W fallSpeed r1 r2 r3).height = 45 := by
  have hwidth : 50 + r1 * 80 < 130 := by nlinarith
  have hpos : (0 : ℚ) ≤ W - (50 + r1 * 80) := by linarith
  refine ⟨?_, ?_, rfl, rfl⟩
  · simp only [spawnObstacle]
    exact mul_nonneg h3 hpos
  · simp only [spawnObstacle]
    nlinarith [mul_nonneg (by linarith : (0:ℚ) ≤ 1 - r2) hpos]

/-- C10 witness: the amended theorem on a wide canvas. -/
theorem claim_C10_witness :
    (130 : ℚ) ≤ 800 ∧ 0 ≤ (spawnObstacle 800 4 (1/2) (1/2) (1/2)).x :=
  ⟨by norm_num,
   (claim_C10 800 4 (1/2) (1/2) (1/2) (by norm_num) (by norm_num) (by norm_num)
      (by norm_num) (by norm_num)).1⟩

end CryptoRunner
